import Mathlib

/-!
Shallow embedding of the JubyVault goal-savings system.

Source layout:
* `MockMorphoVault` (the spec's ShareVault): ERC4626-style share vault with
  simulated linear yield accrual.  Embedded below as `VaultState` together with
  `totalAssets`, `accrueYield`, `convertToShares`, `convertToAssets`,
  `vaultDeposit`, `vaultWithdraw`, `vaultRedeem`, `previewMint`,
  `previewWithdraw`, `initializeVault`.
* `JubyVault` (the spec's GoalSavingsLedger): per-account goal deposits with an
  early-withdrawal penalty.  Embedded as `JubyState` / `SystemState` together
  with `jubyDeposit`, `jubyWithdraw`, `previewWithdrawal`.

Modelling conventions:
* Addresses, token amounts and timestamps are `Nat`; `block.timestamp` is an
  explicit `now` argument.
* Solidity 0.8 checked arithmetic: every subtraction that could underflow in
  the source is guarded by an explicit comparison that produces an
  `Except.error` (a revert).  Additions cannot overflow in the `Nat` model;
  the uint256 bound is not relevant to any claim considered here.
* `require(cond, msg)` becomes an `if`/`Except.error msg` in source order.
* A revert rolls back every state change, so a failing call is modelled as
  `Except.error` carrying no state: "state unchanged on failure" is the
  `Except` semantics itself.
* The underlying asset (USDC) is an external contract that is not part of this
  repository; its `transfer`/`transferFrom`/`approve` calls are modelled as
  succeeding, and the amounts the ledger sends out are recorded in the result
  records (`pulledFromCaller`, `paidToUser`, `paidToTreasury`) and in the
  `Event` trace.
-/

namespace JubyEth

/-- Solidity `365 days`, in seconds. -/
def secondsPerYear : Nat := 365 * 24 * 60 * 60

/-- `ANNUAL_YIELD_BPS = 500` (5% APY in basis points), a constant of the source. -/
def ANNUAL_YIELD_BPS : Nat := 500

/-- `DEAD_ADDRESS = 0x000000000000000000000000000000000000dEaD`, as a `Nat`. -/
def DEAD_ADDRESS : Nat := 0xdEaD

/-- `DEAD_SHARES = 1e9`, the fixed dead-share quantity minted on initialization. -/
def DEAD_SHARES : Nat := 1000000000

/-- State of `MockMorphoVault`.  `cachedTotalAssets` is the private Solidity
field `_totalAssets`; `balanceOf` and `allowance` are the ERC20 mappings with
zero default. -/
structure VaultState where
  totalSupply : Nat
  cachedTotalAssets : Nat
  lastYieldUpdate : Nat
  initialized : Bool
  balanceOf : Nat → Nat
  allowance : Nat → Nat → Nat

/-- `totalAssets()`: cached assets plus linearly accrued yield since
`lastYieldUpdate`.  View function; mutates nothing.  Timestamps are assumed
monotone (the chain clock never runs backwards), so `now - lastYieldUpdate`
uses `Nat` subtraction; theorems that depend on the elapsed time carry the
hypothesis `lastYieldUpdate ≤ now`. -/
def totalAssets (s : VaultState) (now : Nat) : Nat :=
  if s.cachedTotalAssets = 0 then 0
  else
    let timeElapsed := now - s.lastYieldUpdate
    if timeElapsed = 0 then s.cachedTotalAssets
    else
      s.cachedTotalAssets +
        s.cachedTotalAssets * ANNUAL_YIELD_BPS * timeElapsed / (secondsPerYear * 10000)

/-- `_accrueYield()`: fold the accrued yield into the cache and advance
`lastYieldUpdate`. -/
def accrueYield (s : VaultState) (now : Nat) : VaultState :=
  { s with cachedTotalAssets := totalAssets s now, lastYieldUpdate := now }

/-- `convertToShares(assets)`: 1:1 on an empty vault, otherwise
`assets * totalSupply / totalAssets()` (floor). -/
def convertToShares (s : VaultState) (now assets : Nat) : Nat :=
  if s.totalSupply = 0 ∨ totalAssets s now = 0 then assets
  else assets * s.totalSupply / totalAssets s now

/-- `convertToAssets(shares)`: 1:1 when the supply is zero, otherwise
`shares * totalAssets() / totalSupply` (floor). -/
def convertToAssets (s : VaultState) (now shares : Nat) : Nat :=
  if s.totalSupply = 0 then shares
  else shares * totalAssets s now / s.totalSupply

/-- `previewMint(shares)`: rounds up, `(shares * totalAssets() + supply - 1) / supply`. -/
def previewMint (s : VaultState) (now shares : Nat) : Nat :=
  if s.totalSupply = 0 then shares
  else (shares * totalAssets s now + s.totalSupply - 1) / s.totalSupply

/-- `previewWithdraw(assets)`: rounds up, `(assets * supply + totalAssets() - 1) / totalAssets()`. -/
def previewWithdraw (s : VaultState) (now assets : Nat) : Nat :=
  if s.totalSupply = 0 ∨ totalAssets s now = 0 then assets
  else (assets * s.totalSupply + totalAssets s now - 1) / totalAssets s now

/-- `_initializeVault(firstDeposit)`: requires the first deposit to cover the
dead shares, then assigns `totalSupply`, `balanceOf[DEAD_ADDRESS]` and
`_totalAssets` to `DEAD_SHARES`. -/
def initializeVault (s : VaultState) (firstDeposit : Nat) : Except String VaultState :=
  if firstDeposit < DEAD_SHARES then .error "First deposit too small"
  else
    .ok { s with
      totalSupply := DEAD_SHARES
      balanceOf := fun a => if a = DEAD_ADDRESS then DEAD_SHARES else s.balanceOf a
      cachedTotalAssets := DEAD_SHARES }

/-- Result of `MockMorphoVault.deposit`: minted shares, the asset amount pulled
from the caller by `_transferFrom`, and the post-state. -/
structure DepositResult where
  shares : Nat
  pulledFromCaller : Nat
  state : VaultState

/-- `MockMorphoVault.deposit(assets, receiver)`. -/
def vaultDeposit (s : VaultState) (now assets receiver : Nat) : Except String DepositResult :=
  if assets = 0 then .error "Cannot deposit 0"
  else if receiver = 0 then .error "Invalid receiver"
  else
    let s1 := accrueYield s now
    match (if s1.initialized = false then
             (initializeVault s1 assets).map (fun s2 => { s2 with initialized := true })
           else .ok s1) with
    | .error e => .error e
    | .ok s2 =>
      let shares := convertToShares s2 now assets
      if shares = 0 then .error "Zero shares"
      else
        .ok { shares := shares
              pulledFromCaller := assets
              state := { s2 with
                totalSupply := s2.totalSupply + shares
                balanceOf := fun a => if a = receiver then s2.balanceOf a + shares else s2.balanceOf a
                cachedTotalAssets := s2.cachedTotalAssets + assets } }

/-- Result of the share-burning vault operations: shares burned and post-state. -/
structure BurnResult where
  shares : Nat
  state : VaultState

/-- `MockMorphoVault.withdraw(assets, receiver, owner)`, called with an
explicit `msgSender`.  The two global decrements (`totalSupply -= shares`,
`_totalAssets -= assets`) are checked subtractions in Solidity 0.8 and revert
on underflow. -/
def vaultWithdraw (s : VaultState) (now assets receiver owner msgSender : Nat) :
    Except String BurnResult :=
  if assets = 0 then .error "Cannot withdraw 0"
  else if receiver = 0 then .error "Invalid receiver"
  else
    let s1 := accrueYield s now
    let shares := convertToShares s1 now assets
    if shares = 0 then .error "Zero shares"
    else
      match (if msgSender ≠ owner then
               (if s1.allowance owner msgSender < shares then .error "Insufficient allowance"
                else .ok { s1 with allowance := fun o sp =>
                  if o = owner ∧ sp = msgSender then s1.allowance owner msgSender - shares
                  else s1.allowance o sp })
             else .ok s1 : Except String VaultState) with
      | .error e => .error e
      | .ok s2 =>
        if s2.balanceOf owner < shares then .error "Insufficient balance"
        else if s2.totalSupply < shares then .error "arithmetic underflow"
        else if s2.cachedTotalAssets < assets then .error "arithmetic underflow"
        else
          .ok { shares := shares
                state := { s2 with
                  balanceOf := fun a => if a = owner then s2.balanceOf a - shares else s2.balanceOf a
                  totalSupply := s2.totalSupply - shares
                  cachedTotalAssets := s2.cachedTotalAssets - assets } }

/-- Result of `MockMorphoVault.redeem`: assets paid out and post-state. -/
structure RedeemResult where
  assets : Nat
  state : VaultState

/-- `MockMorphoVault.redeem(shares, receiver, owner)`, called with an explicit
`msgSender`.  Source order: zero/receiver checks, allowance, balance, then
`_accrueYield`, conversion, zero-asset check, burn. -/
def vaultRedeem (s : VaultState) (now shares receiver owner msgSender : Nat) :
    Except String RedeemResult :=
  if shares = 0 then .error "Cannot redeem 0"
  else if receiver = 0 then .error "Invalid receiver"
  else
    match (if msgSender ≠ owner then
             (if s.allowance owner msgSender < shares then .error "Insufficient allowance"
              else .ok { s with allowance := fun o sp =>
                if o = owner ∧ sp = msgSender then s.allowance owner msgSender - shares
                else s.allowance o sp })
           else .ok s : Except String VaultState) with
    | .error e => .error e
    | .ok s1 =>
      if s1.balanceOf owner < shares then .error "Insufficient balance"
      else
        let s2 := accrueYield s1 now
        let assets := convertToAssets s2 now shares
        if assets = 0 then .error "Zero assets"
        else if s2.totalSupply < shares then .error "arithmetic underflow"
        else if s2.cachedTotalAssets < assets then .error "arithmetic underflow"
        else
          .ok { assets := assets
                state := { s2 with
                  balanceOf := fun a => if a = owner then s2.balanceOf a - shares else s2.balanceOf a
                  totalSupply := s2.totalSupply - shares
                  cachedTotalAssets := s2.cachedTotalAssets - assets } }

/-- `JubyVault.UserDeposit`.  The Solidity field `exists` is a Lean keyword and
is embedded as `existsFlag`. -/
structure UserDeposit where
  shares : Nat
  principal : Nat
  goalDate : Nat
  depositDate : Nat
  existsFlag : Bool

/-- The all-zero record a Solidity mapping returns for an absent key, and the
value `delete deposits[msg.sender]` resets to. -/
def emptyUserDeposit : UserDeposit :=
  { shares := 0, principal := 0, goalDate := 0, depositDate := 0, existsFlag := false }

/-- Storage of `JubyVault` (the GoalSavingsLedger). -/
structure JubyState where
  jubyTreasury : Nat
  owner : Nat
  deposits : Nat → UserDeposit

/-- The composed system: the ledger, the share vault it calls into, and the
ledger's own address (`address(this)`), which owns the vault shares. -/
structure SystemState where
  juby : JubyState
  vault : VaultState
  jubyAddr : Nat

/-- Observable steps of a `JubyVault.withdraw` execution, in source order:
the storage delete and the external calls that follow it. -/
inductive Event where
  | deleteRecord
  | extRedeem (shares : Nat)
  | extTransfer (toAddr amount : Nat)
deriving DecidableEq

/-- Whether an event is a call into another contract (the share vault redeem
or an asset-token transfer), as opposed to the local storage delete. -/
def Event.isExternalCall : Event → Bool
  | .deleteRecord => false
  | .extRedeem _ => true
  | .extTransfer _ _ => true

/-- Result of `JubyVault.deposit`. -/
structure JDepositResult where
  shares : Nat
  state : SystemState

/-- `JubyVault.deposit(amount, goalDate)` by `msgSender`.  The USDC
`transferFrom`/`approve` steps target the external asset token and are
modelled as succeeding; the vault deposit is the `MockMorphoVault` call. -/
def jubyDeposit (sys : SystemState) (now msgSender amount goalDate : Nat) :
    Except String JDepositResult :=
  if amount = 0 then .error "Cannot deposit 0"
  else if goalDate ≤ now then .error "Goal date must be in future"
  else if (sys.juby.deposits msgSender).existsFlag = true then
    .error "Existing deposit found. Withdraw first."
  else
    match vaultDeposit sys.vault now amount sys.jubyAddr with
    | .error e => .error e
    | .ok r =>
      .ok { shares := r.shares
            state := { sys with
              vault := r.state
              juby := { sys.juby with deposits := fun a =>
                if a = msgSender then
                  { shares := r.shares, principal := amount, goalDate := goalDate
                    depositDate := now, existsFlag := true }
                else sys.juby.deposits a } } }

/-- The observable steps of a successful `withdraw()` in source order: the
storage delete (line `delete deposits[msg.sender]`), the external vault
redeem, the conditional penalty transfer to the treasury, and the final
transfer to the caller. -/
def withdrawEvents (treasury msgSender sh penalty userReceives : Nat) : List Event :=
  [Event.deleteRecord, Event.extRedeem sh] ++
    (if 0 < penalty then [Event.extTransfer treasury penalty] else []) ++
    [Event.extTransfer msgSender userReceives]

/-- Result of `JubyVault.withdraw`: the returned `totalReceived`
(`userReceives`), the computed penalty, the asset amounts actually pushed to
the caller and to the treasury, the yield, the earliness flag, the event
trace, and the post-state. -/
structure JWithdrawResult where
  userReceives : Nat
  penalty : Nat
  paidToUser : Nat
  paidToTreasury : Nat
  yieldEarned : Nat
  isEarly : Bool
  events : List Event
  state : SystemState

/-- `JubyVault.withdraw()` by `msgSender`.

Source order: read record, require it exists, compute
`currentValue = _convertToAssets(shares)` (staticcall into the vault),
`yield`, `isEarly`, penalty split; `delete deposits[msg.sender]`; external
`redeem` on the vault; the slippage check
`require(assetsReceived >= currentValue - 10)` whose checked subtraction
underflows (reverts) when `currentValue < 10`; then the external transfers.
The event list records the delete and the external calls in that source
order. -/
def jubyWithdraw (sys : SystemState) (now msgSender : Nat) : Except String JWithdrawResult :=
  let userDeposit := sys.juby.deposits msgSender
  if userDeposit.existsFlag = false then .error "No deposit found"
  else
    let currentValue := convertToAssets sys.vault now userDeposit.shares
    let yieldEarned :=
      if currentValue > userDeposit.principal then currentValue - userDeposit.principal else 0
    let penalty := if now < userDeposit.goalDate ∧ 0 < yieldEarned then yieldEarned / 2 else 0
    let userReceives :=
      if now < userDeposit.goalDate ∧ 0 < yieldEarned then
        userDeposit.principal + (yieldEarned - yieldEarned / 2)
      else currentValue
    let sys1 : SystemState := { sys with juby := { sys.juby with deposits := fun a =>
      if a = msgSender then emptyUserDeposit else sys.juby.deposits a } }
    match vaultRedeem sys1.vault now userDeposit.shares sys1.jubyAddr sys1.jubyAddr sys1.jubyAddr with
    | .error e => .error e
    | .ok r =>
      if currentValue < 10 then .error "arithmetic underflow"
      else if r.assets < currentValue - 10 then .error "Slippage too high"
      else
        .ok { userReceives := userReceives
              penalty := penalty
              paidToUser := userReceives
              paidToTreasury := if 0 < penalty then penalty else 0
              yieldEarned := yieldEarned
              isEarly := decide (now < userDeposit.goalDate)
              events := withdrawEvents sys.juby.jubyTreasury msgSender userDeposit.shares
                penalty userReceives
              state := { sys1 with vault := r.state } }

/-- `JubyVault.previewWithdrawal(user)`: pure view returning
`(userWillReceive, penaltyAmount)`. -/
def previewWithdrawal (sys : SystemState) (now user : Nat) : Nat × Nat :=
  let userDeposit := sys.juby.deposits user
  if userDeposit.existsFlag = false then (0, 0)
  else
    let currentValue := convertToAssets sys.vault now userDeposit.shares
    let yieldEarned :=
      if currentValue > userDeposit.principal then currentValue - userDeposit.principal else 0
    if now < userDeposit.goalDate ∧ 0 < yieldEarned then
      (userDeposit.principal + (yieldEarned - yieldEarned / 2), yieldEarned / 2)
    else (currentValue, 0)

/-! ### Concrete states used by witnesses and counterexamples -/

/-- Vault holding `1e9` shares for the ledger (address 5), worth
`1_000_000_570` assets at the cached instant `50`. -/
def vEarly : VaultState :=
  { totalSupply := 1000000000, cachedTotalAssets := 1000000570, lastYieldUpdate := 50
    initialized := true, balanceOf := fun a => if a = 5 then 1000000000 else 0
    allowance := fun _ _ => 0 }

def sysEarly : SystemState :=
  { juby := { jubyTreasury := 1, owner := 2, deposits := fun a =>
      if a = 7 then
        { shares := 1000000000, principal := 1000000000, goalDate := 100
          depositDate := 0, existsFlag := true }
      else emptyUserDeposit }
    vault := vEarly, jubyAddr := 5 }



def vOnTime : VaultState :=
  { totalSupply := 1000000000, cachedTotalAssets := 1000000570, lastYieldUpdate := 100
    initialized := true, balanceOf := fun a => if a = 5 then 1000000000 else 0
    allowance := fun _ _ => 0 }

def sysOnTime : SystemState :=
  { juby := { jubyTreasury := 1, owner := 2, deposits := fun a =>
      if a = 7 then
        { shares := 1000000000, principal := 1000000000, goalDate := 100
          depositDate := 0, existsFlag := true }
      else emptyUserDeposit }
    vault := vOnTime, jubyAddr := 5 }


def freshV : VaultState :=
  { totalSupply := 0, cachedTotalAssets := 0, lastYieldUpdate := 0
    initialized := false, balanceOf := fun _ => 0, allowance := fun _ _ => 0 }


def cexS5 : VaultState :=
  { totalSupply := 3, cachedTotalAssets := 2, lastYieldUpdate := 0
    initialized := true, balanceOf := fun a => if a = 7 then 3 else 0
    allowance := fun _ _ => 0 }


def cexV6 : VaultState :=
  { totalSupply := 1, cachedTotalAssets := 1000, lastYieldUpdate := 0
    initialized := true, balanceOf := fun _ => 1, allowance := fun _ _ => 0 }


def vDust : VaultState :=
  { totalSupply := 100, cachedTotalAssets := 100, lastYieldUpdate := 0
    initialized := true, balanceOf := fun a => if a = 5 then 100 else 0
    allowance := fun _ _ => 0 }

def sysDust : SystemState :=
  { juby := { jubyTreasury := 1, owner := 2, deposits := fun a =>
      if a = 7 then
        { shares := 5, principal := 100, goalDate := 100, depositDate := 0, existsFlag := true }
      else emptyUserDeposit }
    vault := vDust, jubyAddr := 5 }


/-! ### Helper lemmas -/

/-- `(x + n - 1) / n` is the ceiling of `x / n`: the floor quotient, plus one
exactly when `n` does not divide `x`. -/
lemma ceilDiv_characterization (x : Nat) {n : Nat} (hn : 0 < n) :
    (x + n - 1) / n = x / n + (if n ∣ x then 0 else 1) := by
  have h1 : x + n - 1 = x + (n - 1) := by omega
  rw [h1, Nat.add_div hn, Nat.mod_eq_of_lt (show n - 1 < n by omega),
    Nat.div_eq_of_lt (show n - 1 < n by omega)]
  by_cases hd : n ∣ x
  · have h0 : x % n = 0 := Nat.dvd_iff_mod_eq_zero.mp hd
    have h2 : ¬ (n ≤ x % n + (n - 1)) := by omega
    simp [hd, h2]
  · have h0 : x % n ≠ 0 := fun hh => hd (Nat.dvd_iff_mod_eq_zero.mpr hh)
    have h2 : n ≤ x % n + (n - 1) := by omega
    simp [hd, h2]

/-- At the instant of the last accrual, `totalAssets` is exactly the cache. -/
lemma totalAssets_at_accrual (s : VaultState) (now : Nat) (h : s.lastYieldUpdate = now) :
    totalAssets s now = s.cachedTotalAssets := by
  unfold totalAssets
  rw [h, Nat.sub_self]
  by_cases hc : s.cachedTotalAssets = 0
  · simp [hc]
  · simp [hc]

/-- Accrual does not change the value `totalAssets` reports at the same
instant; it only caches it. -/
lemma totalAssets_accrueYield (s : VaultState) (now : Nat) :
    totalAssets (accrueYield s now) now = totalAssets s now :=
  totalAssets_at_accrual _ _ rfl

/-- `convertToShares` is unchanged by an accrual at the same instant. -/
lemma convertToShares_accrueYield (s : VaultState) (now a : Nat) :
    convertToShares (accrueYield s now) now a = convertToShares s now a := by
  unfold convertToShares
  rw [totalAssets_accrueYield]
  rfl

/-- `convertToAssets` is unchanged by an accrual at the same instant. -/
lemma convertToAssets_accrueYield (s : VaultState) (now a : Nat) :
    convertToAssets (accrueYield s now) now a = convertToAssets s now a := by
  unfold convertToAssets
  rw [totalAssets_accrueYield]
  rfl

/-- Closed form of `totalAssets` (the `Nat`-truncated elapsed time makes the
closed form hold unconditionally; under a monotone clock it is the source's
`block.timestamp - lastYieldUpdate`). -/
lemma totalAssets_eq (s : VaultState) (now : Nat) :
    totalAssets s now = s.cachedTotalAssets +
      s.cachedTotalAssets * ANNUAL_YIELD_BPS * (now - s.lastYieldUpdate) /
        (secondsPerYear * 10000) := by
  unfold totalAssets
  by_cases hc : s.cachedTotalAssets = 0
  · simp [hc]
  · by_cases ht : now - s.lastYieldUpdate = 0
    · simp [hc, ht]
    · simp [hc, ht]

/-! ### Claim theorems -/

/-- Claim C7: `totalAssets()` returns
`cachedTotalAssets + floor(cachedTotalAssets * annualYieldRateBps * elapsedSeconds
/ (secondsPerYear * 10000))` with `elapsedSeconds` running from
`lastAccrualTime` to `now`, and returns `0` whenever `cachedTotalAssets = 0`.
(`totalAssets` is a pure function of the state: the no-mutation part of the
claim is the shape of the embedding of this `view` function.) -/
theorem totalAssets_closed_form (s : VaultState) (now : Nat) :
    (s.cachedTotalAssets = 0 → totalAssets s now = 0) ∧
    (s.lastYieldUpdate ≤ now →
      totalAssets s now = s.cachedTotalAssets +
        s.cachedTotalAssets * ANNUAL_YIELD_BPS * (now - s.lastYieldUpdate) /
          (secondsPerYear * 10000)) := by
  constructor
  · intro h
    unfold totalAssets
    simp [h]
  · intro _
    exact totalAssets_eq s now

/-- Witness for C7: a year of accrual on a pool of `1_000_000` at 500 bps
yields `50_000`; a zero cache reports zero. -/
theorem totalAssets_closed_form_witness :
    totalAssets
      { totalSupply := 10, cachedTotalAssets := 1000000, lastYieldUpdate := 0
        initialized := true, balanceOf := fun _ => 0, allowance := fun _ _ => 0 }
      31536000 = 1050000 ∧
    totalAssets freshV 5 = 0 := by
  constructor
  · rw [(totalAssets_closed_form
      { totalSupply := 10, cachedTotalAssets := 1000000, lastYieldUpdate := 0
        initialized := true, balanceOf := fun _ => 0, allowance := fun _ _ => 0 }
      31536000).2 (by decide)]
    decide
  · exact (totalAssets_closed_form freshV 5).1 rfl

/-- Claim C4: for positive share supply the floor-rounded round trip
`convertToAssets (convertToShares assets)` never exceeds `assets`. -/
theorem convert_roundTrip_le (s : VaultState) (now a : Nat) (h : 0 < s.totalSupply) :
    convertToAssets s now (convertToShares s now a) ≤ a := by
  have hs : ¬ s.totalSupply = 0 := by omega
  unfold convertToShares convertToAssets
  by_cases ht : totalAssets s now = 0
  · simp [ht, hs]
  · simp only [hs, ht, or_self, if_false, false_or]
    have h1 : a * s.totalSupply / totalAssets s now * totalAssets s now ≤ a * s.totalSupply :=
      Nat.div_mul_le_self _ _
    have h2 : a * s.totalSupply / totalAssets s now * totalAssets s now / s.totalSupply ≤
        a * s.totalSupply / s.totalSupply := Nat.div_le_div_right h1
    rw [Nat.mul_div_cancel _ h] at h2
    exact h2

/-- Witness for C4 at a concrete lossy state: supply 3, pool 2. -/
theorem convert_roundTrip_le_witness :
    0 < cexS5.totalSupply ∧ convertToAssets cexS5 0 (convertToShares cexS5 0 5) ≤ 5 :=
  ⟨by decide, convert_roundTrip_le cexS5 0 5 (by decide)⟩

/-- Amended claim C6: under a monotone clock, with positive yield rate,
positive share supply and a nonzero pool, the asset value of one share never
decreases as time passes.  (The original claim's strict increase fails: over
short windows the accrued yield floors to zero, see
`sharePrice_strict_increase_cex`.) -/
theorem sharePrice_nondecreasing (s : VaultState) (t1 t2 : Nat)
    (h0 : s.lastYieldUpdate ≤ t1) (h12 : t1 ≤ t2)
    (hbps : 0 < ANNUAL_YIELD_BPS) (hsup : 0 < s.totalSupply)
    (hpool : 0 < s.cachedTotalAssets) :
    convertToAssets s t1 1 ≤ convertToAssets s t2 1 := by
  have hT : totalAssets s t1 ≤ totalAssets s t2 := by
    rw [totalAssets_eq s t1, totalAssets_eq s t2]
    exact Nat.add_le_add_left
      (Nat.div_le_div_right
        (Nat.mul_le_mul (Nat.le_refl _) (Nat.sub_le_sub_right h12 _))) _
  unfold convertToAssets
  rw [if_neg (by omega), if_neg (by omega)]
  exact Nat.div_le_div_right (Nat.mul_le_mul (Nat.le_refl _) hT)

/-- Witness for C6 (amended): the concrete state of the counterexample is
still non-decreasing. -/
theorem sharePrice_nondecreasing_witness :
    convertToAssets cexV6 0 1 ≤ convertToAssets cexV6 1 1 :=
  sharePrice_nondecreasing cexV6 0 1 (by decide) (by decide) (by decide) (by decide) (by decide)

/-- Counterexample to C6 as stated: a vault with 500 bps yield, supply 1,
pool 1000, one second after an accrual — every hypothesis of the claim holds,
yet `convertToAssets 1` does not strictly increase (the accrued yield floors
to zero). -/
theorem sharePrice_strict_increase_cex :
    0 < ANNUAL_YIELD_BPS ∧ 0 < cexV6.totalSupply ∧ 0 < cexV6.cachedTotalAssets ∧
    cexV6.lastYieldUpdate = 0 ∧
    ¬ convertToAssets cexV6 0 1 < convertToAssets cexV6 1 1 := by
  decide

/-- Amended claim C5: with nonzero share supply and nonzero pool,
`previewMint` returns the ceiling of `shares * totalAssets / totalShareSupply`
and `previewWithdraw` returns the ceiling of
`assets * totalShareSupply / totalAssets` (ceiling stated as floor quotient
plus one when the division is inexact); the actual `deposit` (once
initialized), `withdraw` and `redeem` paths all use the floor conversions —
in particular the shares charged by the asset-denominated `withdraw` are
`convertToShares(assets)` (floor), NOT the rounded-up preview amount (see
`withdraw_charges_floor_cex`). -/
theorem preview_rounding_policy (s : VaultState) (now n : Nat) :
    (0 < s.totalSupply → 0 < totalAssets s now →
      previewMint s now n =
        n * totalAssets s now / s.totalSupply +
          (if s.totalSupply ∣ n * totalAssets s now then 0 else 1)) ∧
    (0 < s.totalSupply → 0 < totalAssets s now →
      previewWithdraw s now n =
        n * s.totalSupply / totalAssets s now +
          (if totalAssets s now ∣ n * s.totalSupply then 0 else 1)) ∧
    (∀ receiver owner msgSender r, vaultWithdraw s now n receiver owner msgSender = .ok r →
      r.shares = convertToShares s now n) ∧
    (s.initialized = true → ∀ receiver r, vaultDeposit s now n receiver = .ok r →
      r.shares = convertToShares s now n) ∧
    (∀ receiver owner msgSender r, vaultRedeem s now n receiver owner msgSender = .ok r →
      r.assets = convertToAssets s now n) := by
  refine ⟨?_, ?_, ?_, ?_, ?_⟩
  · intro hsup _
    unfold previewMint
    rw [if_neg (by omega)]
    exact ceilDiv_characterization _ hsup
  · intro hsup htot
    unfold previewWithdraw
    rw [if_neg (by omega)]
    exact ceilDiv_characterization _ htot
  · intro receiver owner msgSender r h
    simp only [vaultWithdraw] at h
    split at h
    · exact Except.noConfusion h
    · split at h
      · exact Except.noConfusion h
      · split at h
        · exact Except.noConfusion h
        · split at h
          · exact Except.noConfusion h
          · split at h
            · exact Except.noConfusion h
            · split at h
              · exact Except.noConfusion h
              · split at h
                · exact Except.noConfusion h
                · injection h with h2
                  rw [← h2]
                  exact convertToShares_accrueYield s now n
  · intro hInit receiver r h
    simp only [vaultDeposit] at h
    split at h
    · exact Except.noConfusion h
    · split at h
      · exact Except.noConfusion h
      · split at h
        · rename_i e heq
          rw [if_neg (by simp [accrueYield, hInit])] at heq
          exact Except.noConfusion heq
        · rename_i s2 heq
          rw [if_neg (by simp [accrueYield, hInit])] at heq
          injection heq with heq2
          subst heq2
          split at h
          · exact Except.noConfusion h
          · injection h with h2
            rw [← h2]
            exact convertToShares_accrueYield s now n
  · intro receiver owner msgSender r h
    simp only [vaultRedeem] at h
    split at h
    · exact Except.noConfusion h
    · split at h
      · exact Except.noConfusion h
      · split at h
        · exact Except.noConfusion h
        · rename_i s1 heq
          split at h
          · exact Except.noConfusion h
          · split at h
            · exact Except.noConfusion h
            · split at h
              · exact Except.noConfusion h
              · split at h
                · exact Except.noConfusion h
                · injection h with h2
                  rw [← h2]
                  -- `s1` is `s` with at most a changed allowance; the
                  -- conversion only reads supply, cache and accrual time.
                  split at heq
                  · split at heq
                    · exact Except.noConfusion heq
                    · injection heq with heq2
                      subst heq2
                      exact convertToAssets_accrueYield _ now n
                  · injection heq with heq2
                    subst heq2
                    exact convertToAssets_accrueYield s now n

/-- Witness for C5 (amended): at supply 3, pool 2, `previewMint 5 = 4` and
`previewWithdraw 5 = 8`, both matching the ceiling characterization. -/
theorem preview_rounding_policy_witness :
    previewMint cexS5 0 5 = 4 ∧ previewWithdraw cexS5 0 5 = 8 := by
  constructor
  · rw [(preview_rounding_policy cexS5 0 5).1 (by decide) (by decide)]
    decide
  · rw [(preview_rounding_policy cexS5 0 5).2.1 (by decide) (by decide)]
    decide

/-- Counterexample to C5 as stated: at supply 3, pool 2, withdrawing 1 asset
is previewed at 2 shares (rounded up) but the `withdraw` call burns only
`convertToShares(1) = 1` share (floor) — the charged shares do not equal the
rounded-up preview. -/
theorem withdraw_charges_floor_cex :
    previewWithdraw cexS5 0 1 = 2 ∧
    (vaultWithdraw cexS5 0 1 9 7 7).map (fun r => r.shares) = .ok 1 ∧
    (1 : Nat) ≠ 2 := by
  refine ⟨rfl, rfl, by decide⟩

/-- The vault state right after `_initializeVault` ran during the first
`deposit` call: the accrual has happened, the dead-share fields are assigned,
and `initialized` has been set.  (Proof-structuring abbreviation for the
state `vaultDeposit` threads through its initialization branch.) -/
def seededVault (s : VaultState) (now : Nat) : VaultState :=
  { accrueYield s now with
    totalSupply := DEAD_SHARES
    balanceOf := fun a => if a = DEAD_ADDRESS then DEAD_SHARES else (accrueYield s now).balanceOf a
    cachedTotalAssets := DEAD_SHARES
    initialized := true }

/-- On a covering first deposit, the initialization branch of `vaultDeposit`
produces exactly `seededVault`. -/
lemma initializeVault_ok (s : VaultState) (now x : Nat) (hx : DEAD_SHARES ≤ x) :
    (initializeVault (accrueYield s now) x).map (fun s2 => { s2 with initialized := true }) =
      .ok (seededVault s now) := by
  unfold initializeVault
  rw [if_neg (by omega)]
  rfl

/-- Right after seeding, the vault converts assets to shares 1:1. -/
lemma convertToShares_seededVault (s : VaultState) (now x : Nat) :
    convertToShares (seededVault s now) now x = x := by
  unfold convertToShares
  rw [totalAssets_at_accrual (seededVault s now) now rfl]
  rw [if_neg (by simp [seededVault, DEAD_SHARES])]
  show x * DEAD_SHARES / DEAD_SHARES = x
  exact Nat.mul_div_cancel _ (by decide)

/-- Amended claim C3: on the very first deposit into an uninitialized vault a
deposit below `DEAD_SHARES = 1e9` fails; at or above it, exactly `DEAD_SHARES`
shares are minted to the dead address, the caller is charged exactly `x`
assets and receives `x` shares, and afterwards
`cachedTotalAssets = DEAD_SHARES + x` — the dead-share backing is recorded as
`DEAD_SHARES` ADDITIONAL assets on top of the deposit actually pulled, not
carved out of it (see `firstDeposit_backing_cex`). -/
theorem firstDeposit_seeds_deadShares (s : VaultState) (now x receiver : Nat)
    (hInit : s.initialized = false) (hr : receiver ≠ 0) (hrd : receiver ≠ DEAD_ADDRESS) :
    (x < DEAD_SHARES → ∀ r, vaultDeposit s now x receiver ≠ .ok r) ∧
    (DEAD_SHARES ≤ x →
      (vaultDeposit s now x receiver).map
        (fun r => (r.shares, r.pulledFromCaller, r.state.balanceOf DEAD_ADDRESS,
                   r.state.totalSupply, r.state.cachedTotalAssets)) =
      .ok (x, x, DEAD_SHARES, DEAD_SHARES + x, DEAD_SHARES + x)) := by
  constructor
  · intro hx r h
    by_cases hx0 : x = 0
    · simp [vaultDeposit, hx0] at h
    · have hfail : vaultDeposit s now x receiver = .error "First deposit too small" := by
        simp only [vaultDeposit]
        rw [if_neg hx0, if_neg hr,
          if_pos (show (accrueYield s now).initialized = false from hInit),
          show initializeVault (accrueYield s now) x = .error "First deposit too small" from by
            unfold initializeVault
            rw [if_pos hx]]
        rfl
      rw [hfail] at h
      exact Except.noConfusion h
  · intro hx
    have hx0 : ¬ x = 0 := by
      have hd : (0 : Nat) < DEAD_SHARES := by decide
      omega
    have hbal : (seededVault s now).balanceOf DEAD_ADDRESS = DEAD_SHARES := by
      simp [seededVault]
    have hsup : (seededVault s now).totalSupply = DEAD_SHARES := rfl
    have hcache : (seededVault s now).cachedTotalAssets = DEAD_SHARES := rfl
    simp only [vaultDeposit]
    rw [if_neg hx0, if_neg hr,
      if_pos (show (accrueYield s now).initialized = false from hInit),
      initializeVault_ok s now x hx]
    simp [Except.map, convertToShares_seededVault, hx0, Ne.symm hrd, hbal, hsup, hcache]

/-- Witness for C3 (amended): a fresh vault, first deposit of exactly
`DEAD_SHARES` by receiver 7. -/
theorem firstDeposit_seeds_deadShares_witness :
    (vaultDeposit freshV 0 DEAD_SHARES 7).map
      (fun r => (r.shares, r.pulledFromCaller, r.state.balanceOf DEAD_ADDRESS,
                 r.state.totalSupply, r.state.cachedTotalAssets)) =
    .ok (DEAD_SHARES, DEAD_SHARES, DEAD_SHARES, DEAD_SHARES + DEAD_SHARES,
         DEAD_SHARES + DEAD_SHARES) :=
  (firstDeposit_seeds_deadShares freshV 0 DEAD_SHARES 7 rfl (by decide) (by decide)).2
    (Nat.le_refl _)

/-- Counterexample to C3 as stated: after a first deposit of
`x = 1_000_000_000` into a fresh vault, the caller was charged
`1_000_000_000` but `cachedTotalAssets` is `2_000_000_000` — the claim's
"cachedTotalAssets equals the assets actually pulled from the caller, with
the dead-share backing carved out of x" is false. -/
theorem firstDeposit_backing_cex :
    (vaultDeposit freshV 0 1000000000 7).map
      (fun r => (r.pulledFromCaller, r.state.cachedTotalAssets)) =
      .ok (1000000000, 2000000000) ∧
    (1000000000 : Nat) ≠ 2000000000 := by
  refine ⟨rfl, by decide⟩

/-- The spec's withdrawal formulas, stated from the spec's words (§4.2): with
`currentValue = convertToAssets(shares)` and
`yield = max(currentValue - principal, 0)` (which in `Nat` is the truncated
subtraction `currentValue - principal`), if the withdrawal is early
(`now < goalDate`) and the yield is positive then `penalty = yield / 2`
(floor) and the depositor receives `principal + (yield - penalty)`; otherwise
`penalty = 0` and the depositor receives `currentValue`.  Returns
`(userReceives, penalty)`. -/
def specWithdrawAmounts (principal currentValue goalDate now : Nat) : Nat × Nat :=
  if now < goalDate ∧ 0 < currentValue - principal then
    (principal + ((currentValue - principal) - (currentValue - principal) / 2),
     (currentValue - principal) / 2)
  else (currentValue, 0)

/-- Claim C1: every successful `withdraw()` pays the caller and the treasury
exactly the spec's penalty-policy amounts computed from
`currentValue = convertToAssets(shares)`, the recorded principal and the goal
date; and at the spec's concrete on-time instance (principal `1e9`, yield
570, not early) the caller gets `1_000_000_570` and the treasury `0`.
(The early concrete instance — caller `1_000_000_285`, treasury `285` — is
the witness `withdraw_penalty_policy_witness`.) -/
theorem withdraw_penalty_policy :
    (∀ (sys : SystemState) (now user : Nat) (r : JWithdrawResult),
      (sys.juby.deposits user).existsFlag = true →
      jubyWithdraw sys now user = .ok r →
      (r.paidToUser, r.paidToTreasury) =
        specWithdrawAmounts (sys.juby.deposits user).principal
          (convertToAssets sys.vault now (sys.juby.deposits user).shares)
          (sys.juby.deposits user).goalDate now) ∧
    (jubyWithdraw sysOnTime 100 7).map (fun r => (r.paidToUser, r.paidToTreasury)) =
      .ok (1000000570, 0) := by
  constructor
  · intro sys now user r _ h
    simp only [jubyWithdraw] at h
    split at h
    · exact Except.noConfusion h
    · split at h
      · exact Except.noConfusion h
      · split at h
        · exact Except.noConfusion h
        · split at h
          · exact Except.noConfusion h
          · injection h with h2
            subst h2
            simp only [specWithdrawAmounts]
            have hy : (if convertToAssets sys.vault now (sys.juby.deposits user).shares >
                  (sys.juby.deposits user).principal then
                convertToAssets sys.vault now (sys.juby.deposits user).shares -
                  (sys.juby.deposits user).principal
              else 0) =
                convertToAssets sys.vault now (sys.juby.deposits user).shares -
                  (sys.juby.deposits user).principal := by
              split <;> omega
            simp only [hy]
            generalize convertToAssets sys.vault now (sys.juby.deposits user).shares = cv
            generalize (sys.juby.deposits user).principal = p
            generalize (sys.juby.deposits user).goalDate = gd
            by_cases hA : now < gd ∧ 0 < cv - p
            · rw [if_pos hA, if_pos hA, if_pos hA]
              have h5 : (if 0 < (cv - p) / 2 then (cv - p) / 2 else 0) = (cv - p) / 2 := by
                split <;> omega
              rw [h5]
            · rw [if_neg hA, if_neg hA, if_neg hA]
              rfl
  · rfl

/-- Witness for C1: the spec's concrete early instance — principal `1e9`,
current value `1_000_000_570` (yield 570), withdrawn before the goal date —
pays the caller `1_000_000_285` and the treasury `285`. -/
theorem withdraw_penalty_policy_witness :
    (jubyWithdraw sysEarly 50 7).map (fun r => (r.paidToUser, r.paidToTreasury)) =
      .ok (1000000285, 285) := by
  obtain ⟨r, hr⟩ : ∃ r, jubyWithdraw sysEarly 50 7 = Except.ok r := ⟨_, rfl⟩
  have h := withdraw_penalty_policy.1 sysEarly 50 7 r rfl hr
  rw [hr]
  simp only [Except.map]
  rw [h]
  rfl

/-- Claim C2: `previewWithdrawal` is a pure read returning `(0, 0)` for an
account with no active deposit, and for any account whose `withdraw()` at the
same instant succeeds it returns exactly that withdrawal's
`(userReceives, penalty)` pair — same formulas, same floor rounding. -/
theorem previewWithdrawal_matches_withdraw (sys : SystemState) (now user : Nat) :
    ((sys.juby.deposits user).existsFlag = false → previewWithdrawal sys now user = (0, 0)) ∧
    (∀ r, jubyWithdraw sys now user = .ok r →
      previewWithdrawal sys now user = (r.userReceives, r.penalty)) := by
  constructor
  · intro h
    simp only [previewWithdrawal]
    rw [if_pos h]
  · intro r h
    simp only [jubyWithdraw] at h
    split at h
    · exact Except.noConfusion h
    · rename_i hEx
      split at h
      · exact Except.noConfusion h
      · split at h
        · exact Except.noConfusion h
        · split at h
          · exact Except.noConfusion h
          · injection h with h2
            subst h2
            simp only [previewWithdrawal]
            rw [if_neg hEx]
            by_cases hA : now < (sys.juby.deposits user).goalDate ∧
              0 < (if convertToAssets sys.vault now (sys.juby.deposits user).shares >
                    (sys.juby.deposits user).principal then
                  convertToAssets sys.vault now (sys.juby.deposits user).shares -
                    (sys.juby.deposits user).principal
                else 0)
            · simp only [if_pos hA]
            · simp only [if_neg hA]

/-- Witness for C2: at the early concrete state the preview equals the actual
withdrawal's `(1_000_000_285, 285)`, and an account with no deposit previews
`(0, 0)`. -/
theorem previewWithdrawal_matches_withdraw_witness :
    previewWithdrawal sysEarly 50 7 = (1000000285, 285) ∧
    previewWithdrawal sysEarly 50 8 = (0, 0) := by
  constructor
  · obtain ⟨r, hr⟩ : ∃ r, jubyWithdraw sysEarly 50 7 = Except.ok r := ⟨_, rfl⟩
    rw [(previewWithdrawal_matches_withdraw sysEarly 50 7).2 r hr]
    have hv : (jubyWithdraw sysEarly 50 7).map (fun x => (x.userReceives, x.penalty)) =
        .ok (1000000285, 285) := rfl
    rw [hr] at hv
    simp only [Except.map] at hv
    injection hv with hv2
  · exact (previewWithdrawal_matches_withdraw sysEarly 50 8).1 rfl

/-- Claim C10: an active deposit whose current share value is below the
10-unit slippage tolerance cannot be withdrawn: the checked subtraction
`currentValue - 10` in the slippage check underflows (or an earlier vault
check rejects the redemption), so `withdraw()` always fails. -/
theorem withdraw_dust_locked (sys : SystemState) (now user : Nat)
    (hEx : (sys.juby.deposits user).existsFlag = true)
    (hSmall : convertToAssets sys.vault now (sys.juby.deposits user).shares < 10) :
    (jubyWithdraw sys now user).toOption = none := by
  simp only [jubyWithdraw]
  rw [if_neg (by simp [hEx])]
  split
  · rfl
  · rw [if_pos hSmall]
    rfl

/-- Witness for C10: a position worth 5 asset units (principal 100, shares 5,
pool at par) cannot be withdrawn. -/
theorem withdraw_dust_locked_witness :
    (sysDust.juby.deposits 7).existsFlag = true ∧
    convertToAssets sysDust.vault 0 (sysDust.juby.deposits 7).shares < 10 ∧
    (jubyWithdraw sysDust 0 7).toOption = none :=
  ⟨rfl, by decide, withdraw_dust_locked sysDust 0 7 rfl (by decide)⟩

/-- Amended claim C8: the per-account state machine is
`NoDeposit → Active` (on `deposit`) `→ NoDeposit` (on `withdraw`):
while a record exists every deposit call fails — with the
duplicate-active-deposit error whenever the earlier amount/goal-date checks
pass, and with the corresponding earlier validation error otherwise (see
`duplicate_deposit_error_cex`) — and with no record `withdraw` fails with the
no-active-deposit error; a successful deposit leaves the account Active and a
successful withdraw leaves it NoDeposit.  (A failing call is an
`Except.error`, which carries no state: all state is unchanged.) -/
theorem account_state_machine (sys : SystemState) (now user amount goalDate : Nat) :
    ((sys.juby.deposits user).existsFlag = true →
      ∀ r, jubyDeposit sys now user amount goalDate ≠ .ok r) ∧
    ((sys.juby.deposits user).existsFlag = true → 0 < amount → now < goalDate →
      jubyDeposit sys now user amount goalDate = .error "Existing deposit found. Withdraw first.") ∧
    ((sys.juby.deposits user).existsFlag = false →
      jubyWithdraw sys now user = .error "No deposit found") ∧
    (∀ r, jubyDeposit sys now user amount goalDate = .ok r →
      (r.state.juby.deposits user).existsFlag = true) ∧
    (∀ r, jubyWithdraw sys now user = .ok r →
      (r.state.juby.deposits user).existsFlag = false) := by
  refine ⟨?_, ?_, ?_, ?_, ?_⟩
  · intro hEx r h
    by_cases h1 : amount = 0
    · simp [jubyDeposit, h1] at h
    · by_cases h2 : goalDate ≤ now
      · simp [jubyDeposit, h1, h2] at h
      · rw [show jubyDeposit sys now user amount goalDate =
            .error "Existing deposit found. Withdraw first." from by
          simp only [jubyDeposit]
          rw [if_neg h1, if_neg h2, if_pos hEx]] at h
        exact Except.noConfusion h
  · intro hEx hamt hgd
    simp only [jubyDeposit]
    rw [if_neg (by omega), if_neg (by omega), if_pos hEx]
  · intro hNo
    simp only [jubyWithdraw]
    rw [if_pos hNo]
  · intro r h
    simp only [jubyDeposit] at h
    split at h
    · exact Except.noConfusion h
    · split at h
      · exact Except.noConfusion h
      · split at h
        · exact Except.noConfusion h
        · split at h
          · exact Except.noConfusion h
          · injection h with h2
            subst h2
            simp
  · intro r h
    simp only [jubyWithdraw] at h
    split at h
    · exact Except.noConfusion h
    · split at h
      · exact Except.noConfusion h
      · split at h
        · exact Except.noConfusion h
        · split at h
          · exact Except.noConfusion h
          · injection h with h2
            subst h2
            simp [emptyUserDeposit]

/-- Witness for C8 (amended): with an active record, a well-formed duplicate
deposit fails with the duplicate error; without a record, withdraw fails with
the no-deposit error; and the concrete early-state withdrawal ends NoDeposit. -/
theorem account_state_machine_witness :
    jubyDeposit sysEarly 0 7 5 99 = .error "Existing deposit found. Withdraw first." ∧
    jubyWithdraw sysEarly 50 8 = .error "No deposit found" := by
  constructor
  · exact (account_state_machine sysEarly 0 7 5 99).2.1 rfl (by decide) (by decide)
  · exact (account_state_machine sysEarly 50 8 5 99).2.2.1 rfl

/-- Counterexample to C8 as stated: with an active deposit, a `deposit` call
with amount 0 fails with the amount-validation error, not with the
duplicate-active-deposit error the claim promises for every deposit call
while `exists == true`. -/
theorem duplicate_deposit_error_cex :
    (sysEarly.juby.deposits 7).existsFlag = true ∧
    jubyDeposit sysEarly 0 7 0 99 = .error "Cannot deposit 0" ∧
    "Cannot deposit 0" ≠ "Existing deposit found. Withdraw first." := by
  refine ⟨rfl, rfl, by decide⟩

/-- The trace of a successful withdrawal starts with the storage delete. -/
lemma withdrawEvents_head (t m sh p u : Nat) :
    (withdrawEvents t m sh p u).head? = some Event.deleteRecord := by
  unfold withdrawEvents
  by_cases hp : 0 < p <;> simp [hp]

/-- Everything after the storage delete in a withdrawal trace is an external
call. -/
lemma withdrawEvents_tail_external (t m sh p u : Nat) :
    ∀ e ∈ (withdrawEvents t m sh p u).tail, e.isExternalCall = true := by
  intro e he
  unfold withdrawEvents at he
  by_cases hp : 0 < p
  · simp [hp] at he
    rcases he with rfl | rfl | rfl <;> rfl
  · simp [hp] at he
    rcases he with rfl | rfl <;> rfl

/-- Claim C9: in every successful `withdraw()` the caller's `UserDeposit`
record is deleted strictly before any external call: the event trace starts
with the storage delete and everything after it is an external call (the
vault redeem and the asset transfers). -/
theorem delete_before_external_calls (sys : SystemState) (now user : Nat)
    (r : JWithdrawResult) (h : jubyWithdraw sys now user = .ok r) :
    r.events.head? = some Event.deleteRecord ∧
    ∀ e ∈ r.events.tail, e.isExternalCall = true := by
  simp only [jubyWithdraw] at h
  split at h
  · exact Except.noConfusion h
  · split at h
    · exact Except.noConfusion h
    · split at h
      · exact Except.noConfusion h
      · split at h
        · exact Except.noConfusion h
        · injection h with h2
          subst h2
          exact ⟨withdrawEvents_head _ _ _ _ _, withdrawEvents_tail_external _ _ _ _ _⟩

/-- Witness for C9: the concrete early withdrawal's trace starts with the
delete and is followed only by external calls. -/
theorem delete_before_external_calls_witness :
    (jubyWithdraw sysEarly 50 7).map
      (fun r => (r.events.head?, r.events.tail.all Event.isExternalCall)) =
    .ok (some Event.deleteRecord, true) := by
  obtain ⟨r, hr⟩ : ∃ r, jubyWithdraw sysEarly 50 7 = Except.ok r := ⟨_, rfl⟩
  have h := delete_before_external_calls sysEarly 50 7 r hr
  rw [hr]
  simp only [Except.map]
  rw [h.1, List.all_eq_true.mpr h.2]

end JubyEth
